import Mathlib

/-
Verification of the reading-time estimator core (ReadingTime.py).

Reals are modelled as rationals.  Python `round` (round-half-to-even) is
modelled by `pyRound`; Python floor division `//` and modulo `%` on
integers are modelled by `Int.fdiv` / `Int.fmod` (floor semantics).
The value `math.inf` produced for a zero daily budget is modelled by
`none` in an `Option ℚ`, with `some d` standing for a finite number of
days.
-/

/-- Python built-in `round` on a rational value: round to the nearest
integer, ties going to the even neighbour (round-half-to-even). -/
def pyRound (q : ℚ) : ℤ :=
  if q - ⌊q⌋ < 1/2 then ⌊q⌋
  else if 1/2 < q - ⌊q⌋ then ⌊q⌋ + 1
  else if ⌊q⌋ % 2 = 0 then ⌊q⌋ else ⌊q⌋ + 1

/-- `minutes_to_hms` from ReadingTime.py: `total_sec = int(round(total_min * 60))`,
then `h = total_sec // 3600`, `m = (total_sec % 3600) // 60`, `s = total_sec % 60`.
Python `//` and `%` are floor division and floor modulo, hence `Int.fdiv` / `Int.fmod`. -/
def minutes_to_hms (total_min : ℚ) : ℤ × ℤ × ℤ :=
  let total_sec := pyRound (total_min * 60)
  (total_sec.fdiv 3600, (total_sec.fmod 3600).fdiv 60, total_sec.fmod 60)

/-- `format_duration` from ReadingTime.py: build the list `parts`
(`"{h} h"` when `h` is truthy, `"{m} min"` when `m` is truthy, `"{s} s"`
when both `h` and `m` are zero) and join with a single space. -/
def format_duration (total_min : ℚ) : String :=
  let hms := minutes_to_hms total_min
  let parts : List String := []
  let parts := if hms.1 ≠ 0 then parts ++ [toString hms.1 ++ " h"] else parts
  let parts := if hms.2.1 ≠ 0 then parts ++ [toString hms.2.1 ++ " min"] else parts
  let parts := if hms.1 = 0 ∧ hms.2.1 = 0 then parts ++ [toString hms.2.2 ++ " s"] else parts
  String.intercalate " " parts

/-- `safe_div` from ReadingTime.py: `a / b if b else default` (a Python
float is truthy exactly when it is nonzero). -/
def safe_div (a b d : ℚ) : ℚ :=
  if b ≠ 0 then a / b else d

/-- `avg_min_per_chapter = safe_div(sample_total_min, sample_chapters)` from
ReadingTime.py, line 112; the Python call uses the default `default=0.0`. -/
def avg_min_per_chapter (sample_total_min sample_chapters : ℚ) : ℚ :=
  safe_div sample_total_min sample_chapters 0

/-- Result record of the estimation engine (spec `EstimateResult`).
`days = none` models `math.inf` (no finite projection). -/
structure EstimateResult where
  point_minutes : ℚ
  low_minutes : ℚ
  high_minutes : ℚ
  days : Option ℚ
  weeks : Option ℚ
  deriving DecidableEq

/-- The estimation engine, assembled from the module-level computation of
ReadingTime.py, lines 148-152 and 169-170:
`avg_with_pause = avg + pause`, `total_min = avg_with_pause * total_chapters`,
`low = total_min * (1 - buffer_pct/100)`, `high = total_min * (1 + buffer_pct/100)`,
`days = total_min / minutes_per_day if minutes_per_day > 0 else math.inf`,
`weeks = days / 7`. -/
def estimateTotal (avg pause total_chapters buffer_pct minutes_per_day : ℚ) :
    EstimateResult :=
  let avg_with_pause := avg + pause
  let total_min := avg_with_pause * total_chapters
  let low := total_min * (1 - buffer_pct / 100)
  let high := total_min * (1 + buffer_pct / 100)
  let days : Option ℚ :=
    if minutes_per_day > 0 then some (total_min / minutes_per_day) else none
  let weeks : Option ℚ := days.map (fun d => d / 7)
  ⟨total_min, low, high, days, weeks⟩

/-- `total_chapters = int(round(volumes * ch_per_vol))` from ReadingTime.py,
line 145 (`int` applied to the integer produced by `round` is the identity). -/
def total_chapters_from_volumes (volumes : ℕ) (ch_per_vol : ℚ) : ℤ :=
  pyRound ((volumes : ℚ) * ch_per_vol)

/-- One CSV cell as handed to the summation loop: a cell whose text parses
as the float `q`, a cell whose text raises `ValueError` in `float(...)`,
or an absent key (Python then passes the default `0` to `float`). -/
inductive CellValue where
  | num (q : ℚ)
  | bad (s : String)
  | missing
  deriving DecidableEq

/-- One CSV row: the `chapitre` identifier plus the page-count-or-minutes
cell the selected mode reads. -/
structure BatchRecord where
  chapitre : String
  value : CellValue
  deriving DecidableEq

/-- `try: x = float(cell) except ValueError: x = 0`, with a missing key
defaulting to `0` before parsing (ReadingTime.py, lines 247-250 / 254-257). -/
def parseCell : CellValue → ℚ
  | .num q => q
  | .bad _ => 0
  | .missing => 0

/-- The `for r in rows` accumulation loop of ReadingTime.py, lines 244-258:
state `(total_min_csv, total_pages_csv, total_items)`; every row bumps
`total_items`; pages mode adds the parsed cell to `total_pages_csv`,
minutes mode adds it to `total_min_csv`. -/
def csvLoop (pagesMode : Bool) : List BatchRecord → ℚ × ℚ × ℕ → ℚ × ℚ × ℕ
  | [], acc => acc
  | r :: rs, acc =>
    if pagesMode then
      csvLoop pagesMode rs (acc.1, acc.2.1 + parseCell r.value, acc.2.2 + 1)
    else
      csvLoop pagesMode rs (acc.1 + parseCell r.value, acc.2.1, acc.2.2 + 1)

/-- The CSV total: in pages mode
`total_min_csv = total_pages_csv * fallback_speed + total_items * per_ch_pause`
(ReadingTime.py, line 275); in minutes mode the accumulated `total_min_csv`. -/
def aggregate (rows : List BatchRecord) (pagesMode : Bool)
    (fallback_speed per_ch_pause : ℚ) : ℚ :=
  let acc := csvLoop pagesMode rows (0, 0, 0)
  if pagesMode then acc.2.1 * fallback_speed + (acc.2.2 : ℚ) * per_ch_pause
  else acc.1

/-! ### Helper lemmas -/

/-- `minutes_to_hms` rewritten with Euclidean division, which agrees with
Python floor division for the positive divisors 3600 and 60. -/
lemma minutes_to_hms_eq (tm : ℚ) :
    minutes_to_hms tm =
      (pyRound (tm * 60) / 3600, (pyRound (tm * 60) % 3600) / 60,
        pyRound (tm * 60) % 60) := by
  simp only [minutes_to_hms]
  rw [Int.fdiv_eq_ediv _ (by norm_num), Int.fdiv_eq_ediv _ (by norm_num),
      Int.fmod_eq_emod _ (by norm_num), Int.fmod_eq_emod _ (by norm_num)]

lemma pyRound_nonneg (q : ℚ) (hq : 0 ≤ q) : 0 ≤ pyRound q := by
  have hf : 0 ≤ ⌊q⌋ := Int.floor_nonneg.mpr hq
  unfold pyRound
  split_ifs <;> omega

lemma pyRound_dist (q : ℚ) : |q - (pyRound q : ℚ)| ≤ 1/2 := by
  have h1 : (⌊q⌋ : ℚ) ≤ q := Int.floor_le q
  have h2 : q < ⌊q⌋ + 1 := Int.lt_floor_add_one q
  unfold pyRound
  split_ifs with ha hb hc <;>
    (rw [abs_le]; push_cast; constructor <;> linarith)

lemma minutes_to_hms_nonneg (tm : ℚ) (h : 0 ≤ tm) :
    0 ≤ (minutes_to_hms tm).1 ∧ 0 ≤ (minutes_to_hms tm).2.1 ∧
      0 ≤ (minutes_to_hms tm).2.2 := by
  have ht : 0 ≤ pyRound (tm * 60) :=
    pyRound_nonneg _ (by positivity)
  rw [minutes_to_hms_eq]
  refine ⟨?_, ?_, ?_⟩ <;> simp <;> omega

lemma csvLoop_false_eq (rows : List BatchRecord) :
    ∀ acc : ℚ × ℚ × ℕ,
      csvLoop false rows acc =
        (acc.1 + (rows.map fun r => parseCell r.value).sum, acc.2.1,
          acc.2.2 + rows.length) := by
  induction rows with
  | nil => intro acc; simp [csvLoop]
  | cons r rs ih =>
    rintro ⟨a, b, c⟩
    simp [csvLoop, ih]
    exact ⟨by ring, by omega⟩

lemma csvLoop_true_eq (rows : List BatchRecord) :
    ∀ acc : ℚ × ℚ × ℕ,
      csvLoop true rows acc =
        (acc.1, acc.2.1 + (rows.map fun r => parseCell r.value).sum,
          acc.2.2 + rows.length) := by
  induction rows with
  | nil => intro acc; simp [csvLoop]
  | cons r rs ih =>
    rintro ⟨a, b, c⟩
    simp [csvLoop, ih]
    exact ⟨by ring, by omega⟩

lemma aggregate_minutes_eq (rows : List BatchRecord) (f p : ℚ) :
    aggregate rows false f p = (rows.map fun r => parseCell r.value).sum := by
  simp [aggregate, csvLoop_false_eq]

lemma aggregate_pages_eq (rows : List BatchRecord) (f p : ℚ) :
    aggregate rows true f p =
      ((rows.map fun r => parseCell r.value).sum) * f +
        (rows.length : ℚ) * p := by
  simp [aggregate, csvLoop_true_eq]

/-! ### Claims -/

/-- Claim C1: `estimateTotal` computes `point = (averagePerUnit + overheadPerUnit) * totalUnits`,
`low = point * (1 - uncertaintyPct/100)`, `high = point * (1 + uncertaintyPct/100)`,
`days = point / minutesPerDay` when `minutesPerDay > 0` and `+infinity` (modelled `none`)
otherwise, and `weeks = days / 7`; in particular
`estimateTotal 6 0 100 15 30 = (600, 510, 690, 20 days, 20/7 weeks)`. -/
theorem estimateTotal_formula :
    (∀ a o t p mpd : ℚ,
      (estimateTotal a o t p mpd).point_minutes = (a + o) * t ∧
      (estimateTotal a o t p mpd).low_minutes = (a + o) * t * (1 - p / 100) ∧
      (estimateTotal a o t p mpd).high_minutes = (a + o) * t * (1 + p / 100) ∧
      (estimateTotal a o t p mpd).days =
        (if 0 < mpd then some ((a + o) * t / mpd) else none) ∧
      (estimateTotal a o t p mpd).weeks =
        (if 0 < mpd then some ((a + o) * t / mpd / 7) else none)) ∧
    estimateTotal 6 0 100 15 30 = ⟨600, 510, 690, some 20, some (20 / 7)⟩ := by
  constructor
  · intro a o t p mpd
    refine ⟨rfl, rfl, rfl, rfl, ?_⟩
    simp only [estimateTotal]
    split_ifs <;> rfl
  · norm_num [estimateTotal]

/-- Claim C2: for every `totalMinutes ≥ 0`, the triple `(h, m, s)` returned by
`minutes_to_hms` satisfies `h*3600 + m*60 + s = round(totalMinutes * 60)`. -/
theorem minutes_to_hms_round_trip (tm : ℚ) (_htm : 0 ≤ tm) :
    (minutes_to_hms tm).1 * 3600 + (minutes_to_hms tm).2.1 * 60 +
      (minutes_to_hms tm).2.2 = pyRound (tm * 60) := by
  rw [minutes_to_hms_eq]
  simp only
  omega

theorem minutes_to_hms_round_trip_witness :
    0 ≤ (90 : ℚ) ∧
      (minutes_to_hms 90).1 * 3600 + (minutes_to_hms 90).2.1 * 60 +
        (minutes_to_hms 90).2.2 = pyRound ((90 : ℚ) * 60) :=
  ⟨by norm_num, minutes_to_hms_round_trip 90 (by norm_num)⟩

/-- Claim C3: for every `totalMinutes ≥ 0`, `format_duration` emits `"{h} h"` iff
`hours > 0`, `"{m} min"` iff `minutes > 0`, and a seconds component only when hours
and minutes are both zero, joined by single spaces in order hours then minutes;
in particular `format_duration 0 = "0 s"`, `format_duration 90 = "1 h 30 min"`,
and `format_duration 3600 = "60 h"`. -/
theorem format_duration_spec :
    (∀ tm : ℚ, 0 ≤ tm →
      format_duration tm =
        String.intercalate " "
          ((if 0 < (minutes_to_hms tm).1
              then [toString (minutes_to_hms tm).1 ++ " h"] else []) ++
           (if 0 < (minutes_to_hms tm).2.1
              then [toString (minutes_to_hms tm).2.1 ++ " min"] else []) ++
           (if (minutes_to_hms tm).1 = 0 ∧ (minutes_to_hms tm).2.1 = 0
              then [toString (minutes_to_hms tm).2.2 ++ " s"] else []))) ∧
    format_duration 0 = "0 s" ∧ format_duration 90 = "1 h 30 min" ∧
    format_duration 3600 = "60 h" := by
  refine ⟨?_, ?_, ?_, ?_⟩
  · intro tm htm
    obtain ⟨hh, hm, _⟩ := minutes_to_hms_nonneg tm htm
    simp only [format_duration,
      show ((minutes_to_hms tm).1 ≠ 0) ↔ (0 < (minutes_to_hms tm).1) from by omega,
      show ((minutes_to_hms tm).2.1 ≠ 0) ↔ (0 < (minutes_to_hms tm).2.1) from by
        omega]
    split_ifs <;> simp
  · have h1 : pyRound ((0 : ℚ) * 60) = 0 := by unfold pyRound; norm_num
    simp only [format_duration, minutes_to_hms, h1]
    rfl
  · have h1 : pyRound ((90 : ℚ) * 60) = 5400 := by unfold pyRound; norm_num
    simp only [format_duration, minutes_to_hms, h1]
    rfl
  · have h1 : pyRound ((3600 : ℚ) * 60) = 216000 := by unfold pyRound; norm_num
    simp only [format_duration, minutes_to_hms, h1]
    rfl

theorem format_duration_spec_witness :
    0 ≤ (90 : ℚ) ∧
      format_duration 90 =
        String.intercalate " "
          ((if 0 < (minutes_to_hms (90 : ℚ)).1
              then [toString (minutes_to_hms (90 : ℚ)).1 ++ " h"] else []) ++
           (if 0 < (minutes_to_hms (90 : ℚ)).2.1
              then [toString (minutes_to_hms (90 : ℚ)).2.1 ++ " min"] else []) ++
           (if (minutes_to_hms (90 : ℚ)).1 = 0 ∧ (minutes_to_hms (90 : ℚ)).2.1 = 0
              then [toString (minutes_to_hms (90 : ℚ)).2.2 ++ " s"] else [])) :=
  ⟨by norm_num, format_duration_spec.1 90 (by norm_num)⟩

/-- Claim C4, counterexample: with an arbitrary-real average the band invariant
fails; at `estimateTotal (-1) 0 1 10 1` the point estimate is `-1` but the low
bound is `-9/10 > -1`. -/
theorem estimate_band_cex :
    ¬ ((estimateTotal (-1) 0 1 10 1).low_minutes ≤
         (estimateTotal (-1) 0 1 10 1).point_minutes ∧
       (estimateTotal (-1) 0 1 10 1).point_minutes ≤
         (estimateTotal (-1) 0 1 10 1).high_minutes) := by
  norm_num [estimateTotal]

/-- Claim C4, amended: the invariant `low ≤ point ≤ high` holds whenever
`uncertaintyPct ≥ 0` and additionally the point estimate
`(averagePerUnit + overheadPerUnit) * totalUnits` is non-negative. -/
theorem estimate_band_invariant (a o t p mpd : ℚ) (hp : 0 ≤ p)
    (hpoint : 0 ≤ (a + o) * t) :
    (estimateTotal a o t p mpd).low_minutes ≤
      (estimateTotal a o t p mpd).point_minutes ∧
    (estimateTotal a o t p mpd).point_minutes ≤
      (estimateTotal a o t p mpd).high_minutes := by
  simp only [estimateTotal]
  constructor <;> nlinarith [mul_nonneg hpoint hp]

theorem estimate_band_invariant_witness :
    0 ≤ (15 : ℚ) ∧ 0 ≤ ((6 : ℚ) + 0) * 100 ∧
      ((estimateTotal 6 0 100 15 30).low_minutes ≤
         (estimateTotal 6 0 100 15 30).point_minutes ∧
       (estimateTotal 6 0 100 15 30).point_minutes ≤
         (estimateTotal 6 0 100 15 30).high_minutes) :=
  ⟨by norm_num, by norm_num,
    estimate_band_invariant 6 0 100 15 30 (by norm_num) (by norm_num)⟩

/-- Claim C5, counterexample: with `totalUnits = 0` but `minutesPerDay = 0`
the projection is `+infinity` (modelled `none`), not `0` days. -/
theorem estimate_zero_units_cex :
    (estimateTotal 5 3 0 50 0).days ≠ some 0 := by
  simp [estimateTotal]

/-- Claim C5, amended: `totalUnits = 0` always yields
`point = low = high = 0`, and `days = weeks = 0` whenever `minutesPerDay > 0`,
while `minutesPerDay ≤ 0` still yields the infinite projection (`none`). -/
theorem estimate_zero_units (a o p mpd : ℚ) :
    (estimateTotal a o 0 p mpd).point_minutes = 0 ∧
    (estimateTotal a o 0 p mpd).low_minutes = 0 ∧
    (estimateTotal a o 0 p mpd).high_minutes = 0 ∧
    (estimateTotal a o 0 p mpd).days = (if 0 < mpd then some 0 else none) ∧
    (estimateTotal a o 0 p mpd).weeks = (if 0 < mpd then some 0 else none) := by
  simp only [estimateTotal, mul_zero, zero_mul, zero_div]
  refine ⟨trivial, trivial, trivial, trivial, ?_⟩
  split_ifs <;> simp

/-- Claim C6: `safe_div x 0 d = d` for all `x, d`; `safe_div a b d = a / b` for
every nonzero `b` (e.g. `safe_div 10 2 = 5`); and the sample-rate derivation
equals `safe_div` with default `0`, so a zero-unit sample yields rate `0`. -/
theorem safe_div_spec :
    (∀ x d : ℚ, safe_div x 0 d = d) ∧
    (∀ a b d : ℚ, b ≠ 0 → safe_div a b d = a / b) ∧
    safe_div 10 2 0 = 5 ∧
    (∀ e u : ℚ, avg_min_per_chapter e u = safe_div e u 0) ∧
    (∀ e : ℚ, avg_min_per_chapter e 0 = 0) := by
  refine ⟨fun x d => by simp [safe_div], fun a b d hb => by simp [safe_div, hb],
    by norm_num [safe_div], fun e u => rfl,
    fun e => by simp [avg_min_per_chapter, safe_div]⟩

theorem safe_div_spec_witness :
    (2 : ℚ) ≠ 0 ∧ safe_div 10 2 0 = 10 / 2 :=
  ⟨by norm_num, safe_div_spec.2.1 10 2 0 (by norm_num)⟩

/-- Claim C7: in minutes mode `aggregate` returns the sum of the records'
minute values, a record with a missing or non-numeric cell contributing `0`;
over cells `20`, `"bad"`, `15` it returns `35`. -/
theorem aggregate_minutes_spec :
    (∀ (rows : List BatchRecord) (f p : ℚ),
      aggregate rows false f p = (rows.map fun r => parseCell r.value).sum) ∧
    aggregate [⟨"1", .num 20⟩, ⟨"2", .bad "bad"⟩, ⟨"3", .num 15⟩] false 0 0 =
      35 := by
  refine ⟨aggregate_minutes_eq, ?_⟩
  norm_num [aggregate_minutes_eq, parseCell]

/-- Claim C8: in pages mode `aggregate` returns
`totalPages * fallbackSpeedPerPage + rowCount * perRowOverhead`, the per-row
overhead counted once per record; records totalling 100 pages over 4 rows with
speed `1/5` and overhead `1` yield `24`. -/
theorem aggregate_pages_spec :
    (∀ (rows : List BatchRecord) (f p : ℚ),
      aggregate rows true f p =
        ((rows.map fun r => parseCell r.value).sum) * f +
          (rows.length : ℚ) * p) ∧
    aggregate [⟨"1", .num 25⟩, ⟨"2", .num 25⟩, ⟨"3", .num 30⟩, ⟨"4", .num 20⟩]
      true (1/5) 1 = 24 := by
  refine ⟨aggregate_pages_eq, ?_⟩
  norm_num [aggregate_pages_eq, parseCell]

/-- Claim C9: `total_chapters_from_volumes` returns
`round(volumeCount * unitsPerVolume)` under round-to-nearest semantics (ties to
even), so the result is within `1/2` of the product; in particular
`total_chapters_from_volumes 10 10 = 100` and
`total_chapters_from_volumes 3 (21/2) = round(31.5) = 32`. -/
theorem total_chapters_spec :
    (∀ (v : ℕ) (u : ℚ), 0 < v → 0 < u →
      total_chapters_from_volumes v u = pyRound ((v : ℚ) * u) ∧
      |(v : ℚ) * u - (total_chapters_from_volumes v u : ℚ)| ≤ 1 / 2) ∧
    total_chapters_from_volumes 10 10 = 100 ∧
    total_chapters_from_volumes 3 (21 / 2) = 32 := by
  refine ⟨fun v u hv hu => ⟨rfl, pyRound_dist _⟩, ?_, ?_⟩
  · unfold total_chapters_from_volumes pyRound
    norm_num
  · unfold total_chapters_from_volumes pyRound
    norm_num

theorem total_chapters_spec_witness :
    0 < (3 : ℕ) ∧ 0 < (21 / 2 : ℚ) ∧
      (total_chapters_from_volumes 3 (21 / 2) =
          pyRound (((3 : ℕ) : ℚ) * (21 / 2)) ∧
        |((3 : ℕ) : ℚ) * (21 / 2) -
            (total_chapters_from_volumes 3 (21 / 2) : ℚ)| ≤ 1 / 2) :=
  ⟨by norm_num, by norm_num,
    total_chapters_spec.1 3 (21 / 2) (by norm_num) (by norm_num)⟩

/-- Claim C10: in pages mode a record with a missing or non-numeric page-count
cell contributes `0` pages but is still counted as a row, so appending such a
record changes the total by exactly one `perRowOverhead`. -/
theorem aggregate_malformed_row_spec :
    ∀ (rows : List BatchRecord) (ident s : String) (f p : ℚ),
      parseCell (.bad s) = 0 ∧ parseCell .missing = 0 ∧
      aggregate (rows ++ [⟨ident, .bad s⟩]) true f p =
        aggregate rows true f p + p ∧
      aggregate (rows ++ [⟨ident, .missing⟩]) true f p =
        aggregate rows true f p + p := by
  intro rows ident s f p
  refine ⟨rfl, rfl, ?_, ?_⟩ <;>
    (simp [aggregate_pages_eq, parseCell]; ring)
